import Mathlib

/-!
Verification of the monitoring engine of a Flask-based network ping monitor
(`app.py`).  The development shallowly embeds the `PingMonitor` class: YAML
configuration parsing (`load_config`), the single-host probe (`ping_host`
and `_parse_latency`), the thread-safe snapshot (`get_results_copy`), the
single-host HTTP entry point (`ping_single`) and the health summary
(`health_check`).  Python dictionaries are modelled as insertion-ordered
association lists with unique keys (`assocLookup` / `dictInsert`), YAML
values as the inductive `Yaml`, exceptions as `Except`/explicit error
outcomes, and machine floats as exact rationals.
-/

/-- A parsed YAML value, as produced by `yaml.safe_load`.  Mapping keys are
restricted to strings, which is the only shape the program's configuration
files use.  `null` doubles as Python's `None` (an empty document). -/
inductive Yaml where
  | null : Yaml
  | boolv : Bool → Yaml
  | num : Int → Yaml
  | str : String → Yaml
  | listv : List Yaml → Yaml
  | dict : List (String × Yaml) → Yaml

/-- First-match lookup in an association list; models `d[k]` / `d.get(k)` on a
Python dict (keys are kept unique by `dictInsert`). -/
def assocLookup {α : Type} : List (String × α) → String → Option α
  | [], _ => none
  | (k, v) :: t, key => if k = key then some v else assocLookup t key

/-- Python dict assignment `d[k] = v`: overwrite in place if the key exists
(preserving insertion order), otherwise append at the end.  Keys stay unique
because every dict in the model is built from `[]` by this function. -/
def dictInsert {α : Type} (k : String) (v : α) : List (String × α) → List (String × α)
  | [] => [(k, v)]
  | (k1, v1) :: t => if k1 = k then (k, v) :: t else (k1, v1) :: dictInsert k v t

/-- Python truthiness of a YAML value (`if hosts_data:`, `if ip:` …). -/
def yamlTruthy : Yaml → Bool
  | .null => false
  | .boolv b => b
  | .num n => n ≠ 0
  | .str s => s ≠ ""
  | .listv l => !l.isEmpty
  | .dict l => !l.isEmpty

/-- `isinstance(x, dict)`. -/
def yamlIsDict : Yaml → Bool
  | .dict _ => true
  | _ => false

/-- `'key' in d` for a dict value. -/
def yamlHasKey (y : Yaml) (k : String) : Bool :=
  match y with
  | .dict l => l.any (fun p => p.1 = k)
  | _ => false

/-- Python subscript `x[0]`.  Succeeds on a non-empty list (first element) and
on a non-empty string (first character); raises (`.error`) on an empty
list/string (IndexError), a dict (KeyError: no integer key occurs in the
modelled configs), and every other value (TypeError). -/
def yamlIndex0 : Yaml → Except Unit Yaml
  | .listv (x :: _) => .ok x
  | .str s =>
    match s.toList with
    | c :: _ => .ok (.str (String.mk [c]))
    | [] => .error ()
  | _ => .error ()

/-- Python iteration `for x in y`.  Lists yield their elements, strings their
characters (as 1-character strings), dicts their keys; every other value
raises TypeError (`.error`). -/
def yamlIter : Yaml → Except Unit (List Yaml)
  | .listv l => .ok l
  | .str s => .ok (s.toList.map (fun c => .str (String.mk [c])))
  | .dict l => .ok (l.map (fun p => Yaml.str p.1))
  | _ => .error ()

/-- Per-host metadata stored in `self.host_info[ip]` (always built with the
three keys `type`, `color`, `known_offline`; values are raw YAML data). -/
structure HostMeta where
  type : Yaml
  color : Yaml
  known_offline : Yaml

/-- One cached probe result, the dict stored in `self.results[host]`. -/
structure ResultEntry where
  status : String
  latency : Option ℚ
  timestamp : Option String
  type : Yaml
  color : Yaml
  known_offline : Yaml

/-- The mutable state of the `PingMonitor` instance that the claims concern:
`self.hosts`, `self.host_info` and `self.results`. -/
structure MonitorState where
  hosts : List String
  host_info : List (String × HostMeta)
  results : List (String × ResultEntry)

/-! ### Configuration parsing (`load_config`, lines 43–143) -/

/-- Extract one ip entry (lines 72–86 and, identically, 97–109): a string is
the address itself with `known_offline = False`; a dict contributes its first
key as the address and reads `known_offline` from the associated value when
that value is itself a dict.  `list(ip_entry.keys())[0]` raises IndexError on
an empty dict (`.error`).  Other shapes leave `ip = None` (`.ok none`), and a
falsy (empty) address string is likewise skipped by `if ip:`. -/
def parseIpEntry : Yaml → Except Unit (Option (String × Yaml))
  | .str s => .ok (if s = "" then none else some (s, .boolv false))
  | .dict [] => .error ()
  | .dict ((k, v) :: _) =>
    let ko : Yaml :=
      match v with
      | .dict l => (assocLookup l "known_offline").getD (.boolv false)
      | _ => .boolv false
    .ok (if k = "" then none else some (k, ko))
  | _ => .ok none

/-- Outcome of the host-parsing loops: either the accumulated `hosts` list and
`host_info` dict, or the `host_info` accumulated up to an exception (the
`except Exception` handler at line 141 then resets `hosts` to `[]` but leaves
the partially built `host_info` in place). -/
inductive ParseResult where
  | ok (hosts : List String) (info : List (String × HostMeta)) : ParseResult
  | err (info : List (String × HostMeta)) : ParseResult

/-- The inner `for ip_entry in group_ips_entries` loop (lines 72–94): each
extracted address is appended to `hosts` (no duplicate check) and its metadata
written into `host_info` (dict write, so a later duplicate overwrites).  The
flat/legacy loop (lines 97–117) is this same loop run with the fixed metadata
`type = "Unknown"`, `color = "#6c757d"`. -/
def addIpEntries (gtype gcolor : Yaml) :
    List Yaml → List String → List (String × HostMeta) → ParseResult
  | [], hosts, info => .ok hosts info
  | e :: rest, hosts, info =>
    match parseIpEntry e with
    | .error _ => .err info
    | .ok none => addIpEntries gtype gcolor rest hosts info
    | .ok (some (ip, ko)) =>
        addIpEntries gtype gcolor rest (hosts ++ [ip])
          (dictInsert ip ⟨gtype, gcolor, ko⟩ info)

/-- The grouped-format loop `for group in hosts_data` (lines 67–94): each
group must be a dict (`.get` on anything else raises AttributeError), its
`ips` value must be iterable, and its entries are folded in by
`addIpEntries`. -/
def parseGroups : List Yaml → List String → List (String × HostMeta) → ParseResult
  | [], hosts, info => .ok hosts info
  | g :: rest, hosts, info =>
    match g with
    | Yaml.dict gl =>
      let gtype := (assocLookup gl "type").getD (Yaml.str "Unknown")
      let gcolor := (assocLookup gl "color").getD (Yaml.str "#6c757d")
      let gips := (assocLookup gl "ips").getD (Yaml.listv [])
      match yamlIter gips with
      | .error _ => .err info
      | .ok entries =>
        match addIpEntries gtype gcolor entries hosts info with
        | .ok h i => parseGroups rest h i
        | .err i => .err i
    | _ => .err info

/-- The format-detection expression (line 65):
`hosts_data and isinstance(hosts_data[0], dict) and 'type' in hosts_data[0]`.
Returns `.ok true` for the grouped format, `.ok false` for the flat/legacy
format, and `.error` when the subscript `hosts_data[0]` raises. -/
def groupedBranch (hostsData : Yaml) : Except Unit Bool :=
  if yamlTruthy hostsData then
    match yamlIndex0 hostsData with
    | .error _ => .error ()
    | .ok first => .ok (yamlIsDict first && yamlHasKey first "type")
  else .ok false

/-- The placeholder result seeded for a not-yet-cached host (lines 126–133).
The direct subscript `self.host_info[host]` always finds the key (every
element of `hosts` is inserted into `host_info` at the same time); the `getD`
default is dead code kept only to make the function total. -/
def placeholderEntry (info : List (String × HostMeta)) (h : String) : ResultEntry :=
  let m := (assocLookup info h).getD ⟨.str "Unknown", .str "#6c757d", .boolv false⟩
  ⟨"unknown", none, none, m.type, m.color, m.known_offline⟩

/-- The re-seeding loop (lines 122–133): for each loaded host, insert an
`unknown`-status placeholder only if no cached result exists. -/
def seedResults (info : List (String × HostMeta)) :
    List String → List (String × ResultEntry) → List (String × ResultEntry)
  | [], res => res
  | h :: t, res =>
    seedResults info t
      (match assocLookup res h with
       | some _ => res
       | none => dictInsert h (placeholderEntry info h) res)

/-- What `load_config` gets to work on: the file may be missing
(`FileNotFoundError`), unparsable (`yaml.YAMLError`), or parse to a document
(`Yaml.null` for an empty file, matching `data is None`). -/
inductive LoadInput where
  | fileNotFound : LoadInput
  | yamlError : LoadInput
  | doc : Yaml → LoadInput

/-- The whole host-parsing phase of `load_config` (lines 60–117): pick the
grouped or flat branch and run the corresponding loop, starting from the
freshly reset `hosts = []` and `host_info = {}` of lines 62–63; a raised
exception anywhere yields `.err` with the partially built `host_info`. -/
def parseHostsData (hostsData : Yaml) : ParseResult :=
  match groupedBranch hostsData with
  | .error _ => ParseResult.err []
  | .ok true =>
    match yamlIter hostsData with
    | .error _ => ParseResult.err []
    | .ok groups => parseGroups groups [] []
  | .ok false =>
    match yamlIter hostsData with
    | .error _ => ParseResult.err []
    | .ok items => addIpEntries (Yaml.str "Unknown") (Yaml.str "#6c757d") items [] []

/-- `load_config` (lines 43–143).  Returns the updated monitor state together
with a flag recording whether a `logger.error` diagnostic was emitted.  All
failure paths reset `self.hosts` to `[]` and leave `self.results` untouched;
only after the document passes the dict check are `hosts` and `host_info`
re-initialised, and only a fully successful parse seeds `results`. -/
def load_config (st : MonitorState) (input : LoadInput) : MonitorState × Bool :=
  match input with
  | .fileNotFound => ({ st with hosts := [] }, true)
  | .yamlError => ({ st with hosts := [] }, true)
  | .doc Yaml.null => ({ st with hosts := [] }, true)
  | .doc (Yaml.dict entries) =>
    match parseHostsData ((assocLookup entries "hosts").getD (Yaml.listv [])) with
    | .err info => ({ st with hosts := [], host_info := info }, true)
    | .ok hosts info =>
      ({ st with hosts := hosts, host_info := info,
                 results := seedResults info hosts st.results }, false)
  | .doc _ => ({ st with hosts := [] }, true)

/-! ### Latency parsing (`_parse_latency`, lines 211–237)

The string processing is carried out on `List Char` so that every function is
structurally recursive and evaluates inside the kernel. -/

/-- `output.lower()`. -/
def lowerChars (l : List Char) : List Char := l.map Char.toLower

/-- `s.split(sep)` for a single-character separator, keeping empty segments
(used for `output_lower.split('\n')` and for the `'.'` split inside float
parsing). -/
def splitOnChar (sep : Char) : List Char → List (List Char)
  | [] => [[]]
  | c :: t =>
    let r := splitOnChar sep t
    if c = sep then [] :: r
    else
      match r with
      | [] => [[c]]
      | h :: rs => (c :: h) :: rs

/-- The suffix following the first occurrence of `pat`, or `none` when `pat`
does not occur (so `.isSome` is Python's `pat in s`). -/
def afterSeq (pat : List Char) : List Char → Option (List Char)
  | [] => none
  | c :: t =>
    if List.isPrefixOf pat (c :: t) then some (List.drop pat.length (c :: t))
    else afterSeq pat t

/-- `pat in s`. -/
def containsSeq (pat l : List Char) : Bool := (afterSeq pat l).isSome

/-- The prefix of `l` up to (excluding) the first occurrence of `pat`. -/
def takeUntilSeq (pat : List Char) : List Char → List Char
  | [] => []
  | c :: t => if List.isPrefixOf pat (c :: t) then [] else c :: takeUntilSeq pat t

/-- `line.split(pat)[1]`: the segment strictly between the first occurrence of
`pat` and the following occurrence (or the end of the line); `none` when `pat`
does not occur at all. -/
def splitSeg1 (pat l : List Char) : Option (List Char) :=
  (afterSeq pat l).map (takeUntilSeq pat)

/-- `s.split()[0]`: first whitespace-delimited token; `none` models the
IndexError raised when the string holds no token. -/
def firstTok (l : List Char) : Option (List Char) :=
  match (l.dropWhile Char.isWhitespace).takeWhile (fun ch => !ch.isWhitespace) with
  | [] => none
  | c :: t => some (c :: t)

/-- `time_part.replace('ms', '')`: left-to-right removal of every
(non-overlapping) occurrence of the two-character pattern `ms`. -/
def removeMs : List Char → List Char
  | [] => []
  | 'm' :: 's' :: t2 => removeMs t2
  | c :: t => c :: removeMs t

/-- Numeric value of a digit string. -/
def digitsNat (cs : List Char) : Nat :=
  cs.foldl (fun a c => a * 10 + (c.toNat - 48)) 0

/-- Python's `float(s)` on the decimal literals that appear in ping output:
an optional sign followed by digits with at most one decimal point (exponent
and inf/nan forms, which ping never prints, are not modelled).  `none` models
the ValueError raised on any other string. -/
def pyFloat (cs0 : List Char) : Option ℚ :=
  let sb : Bool × List Char :=
    match cs0 with
    | '-' :: t => (true, t)
    | '+' :: t => (false, t)
    | _ => (false, cs0)
  let v : Option ℚ :=
    match splitOnChar '.' sb.2 with
    | [ip] => if ip ≠ [] ∧ ip.all Char.isDigit then some (digitsNat ip : ℚ) else none
    | [ip, fp] =>
      if (ip ≠ [] ∨ fp ≠ []) ∧ ip.all Char.isDigit ∧ fp.all Char.isDigit then
        some ((digitsNat ip : ℚ) + (digitsNat fp : ℚ) / (10 : ℚ) ^ fp.length)
      else none
    | _ => none
  v.map (fun q => if sb.1 then -q else q)

/-- `'time='` -/
def timeEq : List Char := ['t', 'i', 'm', 'e', '=']

/-- `'time<'` -/
def timeLt : List Char := ['t', 'i', 'm', 'e', '<']

/-- `'ms'` -/
def msSeq : List Char := ['m', 's']

/-- The Windows scan (lines 217–226): a `time=` line yields its first token;
a token containing `ms` is parsed after stripping `ms` (a parse failure or a
missing token aborts the whole scan via the `except` at line 234, giving
`none`), while a token without `ms` just moves on to the next line; otherwise
a `time<` line yields the sub-millisecond sentinel `1.0`. -/
def parseLatWin : List (List Char) → Option ℚ
  | [] => none
  | line :: rest =>
    match splitSeg1 timeEq line with
    | some seg =>
      match firstTok seg with
      | none => none
      | some tok =>
        if containsSeq msSeq tok then pyFloat (removeMs tok)
        else parseLatWin rest
    | none =>
      if containsSeq timeLt line then some 1
      else parseLatWin rest

/-- The Linux/macOS scan (lines 228–233): the first `time=` line is parsed
and any failure (missing token or unparsable float) aborts with `none`. -/
def parseLatLinux : List (List Char) → Option ℚ
  | [] => none
  | line :: rest =>
    match splitSeg1 timeEq line with
    | some seg =>
      match firstTok seg with
      | none => none
      | some tok => pyFloat tok
    | none => parseLatLinux rest

/-- `_parse_latency(output, system)` (lines 211–237). -/
def parse_latency (output system : String) : Option ℚ :=
  let ol := lowerChars output.toList
  if system = "windows" then parseLatWin (splitOnChar '\n' ol)
  else parseLatLinux (splitOnChar '\n' ol)

/-! ### The probe (`ping_host`, lines 145–209) -/

/-- Outcome of the `subprocess.run` invocation: normal completion with a
return code and captured stdout, the 5-second hard timeout
(`subprocess.TimeoutExpired`), or any other internal error caught by the
blanket `except Exception` (spawn failure, resolution error, …). -/
inductive PingOutcome where
  | completed (returncode : Int) (stdout : String) : PingOutcome
  | timeout : PingOutcome
  | err : PingOutcome

/-- `self.host_info.get(host, {})` with the per-field defaults applied
(`'Unknown'`, `'#6c757d'`, `False`); entries that exist always carry all
three keys. -/
def hostInfoGet (info : List (String × HostMeta)) (h : String) : HostMeta :=
  (assocLookup info h).getD ⟨.str "Unknown", .str "#6c757d", .boolv false⟩

/-- `ping_host` (lines 145–209).  The metadata fields of the result are read
from the shared `host_info` map at call time; the classification follows
lines 161–171, and every failure shape is absorbed into a `red` result with
no latency. -/
def ping_host (info : List (String × HostMeta)) (host system now : String)
    (outcome : PingOutcome) : ResultEntry :=
  let m := hostInfoGet info host
  match outcome with
  | .completed rc stdout =>
    if rc = 0 then
      let latency := parse_latency stdout system
      let status : String :=
        match latency with
        | some l => if l ≤ 50 then "green" else if 50 < l then "yellow" else "green"
        | none => "green"
      ⟨status, latency, some now, m.type, m.color, m.known_offline⟩
    else ⟨"red", none, some now, m.type, m.color, m.known_offline⟩
  | .timeout => ⟨"red", none, some now, m.type, m.color, m.known_offline⟩
  | .err => ⟨"red", none, some now, m.type, m.color, m.known_offline⟩

/-! ### Snapshot (`get_results_copy`, lines 308–329) -/

/-- A snapshot entry: a copied result entry extended with the two display-tag
fields derived at read time. -/
structure TaggedEntry extends ResultEntry where
  show_known_tag : Bool
  show_unknown_tag : Bool

/-- The tag derivation applied to one copied entry (lines 313–327), testing
the truthiness of the stored `known_offline` value. -/
def tagEntry (r : ResultEntry) : TaggedEntry :=
  let iko := yamlTruthy r.known_offline
  if r.status = "red" ∧ iko = true then
    { toResultEntry := r, show_known_tag := true, show_unknown_tag := false }
  else if r.status = "red" ∧ iko = false then
    { toResultEntry := r, show_known_tag := false, show_unknown_tag := true }
  else
    { toResultEntry := r, show_known_tag := false, show_unknown_tag := false }

/-- `get_results_copy` (lines 308–329): a per-entry copy of the result map
with the display tags attached. -/
def get_results_copy (results : List (String × ResultEntry)) :
    List (String × TaggedEntry) :=
  results.map (fun p => (p.1, tagEntry p.2))

/-! ### HTTP-facing operations used by the claims -/

/-- The `/api/ping/<host>` handler `ping_single` (lines 364–373): a host in
the current topology is probed and the result written through to the store;
any other address yields the distinguishable `Host not found` error and the
state is returned untouched. -/
def ping_single (st : MonitorState) (host system now : String)
    (outcome : PingOutcome) :
    Except String (String × ResultEntry) × MonitorState :=
  if host ∈ st.hosts then
    let result := ping_host st.host_info host system now outcome
    (.ok (host, result), { st with results := dictInsert host result st.results })
  else
    (.error "Host not found", st)

/-! ### Occurrence view of the parsing loops

`entryOccs`/`groupOccs` list, in program order, every `(address, metadata)`
pair the loops of `load_config` extract — one pair per occurrence, duplicates
included.  They are used to state what `addIpEntries`/`parseGroups`
accumulate: the hosts list is the first projection of this sequence and the
`host_info` dict is the left fold of dict assignment over it. -/

/-- The `(address, metadata)` pairs extracted from one `ips` list by the loop
at lines 72–93, with the enclosing group's `type`/`color`; errs exactly when
the loop raises. -/
def entryOccs (gtype gcolor : Yaml) : List Yaml → Except Unit (List (String × HostMeta))
  | [] => .ok []
  | e :: rest =>
    match parseIpEntry e with
    | .error _ => .error ()
    | .ok none => entryOccs gtype gcolor rest
    | .ok (some (ip, ko)) =>
      (entryOccs gtype gcolor rest).map (fun l => (ip, ⟨gtype, gcolor, ko⟩) :: l)

/-- The `(address, metadata)` pairs extracted from a grouped-format host list
(lines 67–94); errs exactly when `parseGroups` raises. -/
def groupOccs : List Yaml → Except Unit (List (String × HostMeta))
  | [] => .ok []
  | g :: rest =>
    match g with
    | Yaml.dict gl =>
      let gtype := (assocLookup gl "type").getD (Yaml.str "Unknown")
      let gcolor := (assocLookup gl "color").getD (Yaml.str "#6c757d")
      let gips := (assocLookup gl "ips").getD (Yaml.listv [])
      match yamlIter gips with
      | .error _ => .error ()
      | .ok entries =>
        match entryOccs gtype gcolor entries with
        | .error _ => .error ()
        | .ok o1 => (groupOccs rest).map (fun r => o1 ++ r)
    | _ => .error ()

/-- The `host_info` dict carried by either outcome of a parsing loop. -/
def infoOf : ParseResult → List (String × HostMeta)
  | .ok _ i => i
  | .err i => i

/-- One dict assignment step, `d[p.1] = p.2`, in the form folded over an
occurrence list. -/
def insPair {α : Type} (d : List (String × α)) (p : String × α) : List (String × α) :=
  dictInsert p.1 p.2 d

/-- The value attached to the last occurrence of key `a` in an occurrence
list (none when `a` never occurs): the value that last-write-wins dict
assignment leaves in place. -/
def lastVal {α : Type} : List (String × α) → String → Option α
  | [], _ => none
  | (k, v) :: rest, a =>
    match lastVal rest a with
    | some m => some m
    | none => if k = a then some v else none

/-- The `/api/health` payload (lines 386–394). -/
structure HealthSummary where
  status : String
  hosts_count : Nat
  monitoring_active : Bool
  last_update : String

/-- `health_check` (lines 386–394). -/
def health_check (st : MonitorState) (is_running : Bool) (now : String) :
    HealthSummary :=
  ⟨"healthy", st.hosts.length, is_running, now⟩

/-! ### Concrete states, documents and probe outputs used as test inputs -/

/-- A fresh monitor state (all three containers empty). -/
def initState : MonitorState := ⟨[], [], []⟩

/-- A reachable-host ping transcript whose latency figure is `10`. -/
def linuxOutFast : String := "64 bytes from 1.1.1.1: icmp_seq=1 ttl=57 time=10 ms"

/-- A reachable-host ping transcript whose latency figure is `80`. -/
def linuxOutSlow : String := "64 bytes from 1.1.1.1: icmp_seq=1 ttl=57 time=80 ms"

/-- A reachable-host ping transcript with no extractable latency figure. -/
def linuxOutNoLat : String := "1 packets transmitted, 1 received"

/-- A cached result for a host that is down and configured as known offline. -/
def redKnownEntry : ResultEntry :=
  ⟨"red", none, some "2024-01-01 00:00:00", .str "Servers", .str "#111111", .boolv true⟩

/-- First group of the duplicate-address document: label `A`. -/
def c3group1 : List (String × Yaml) :=
  [("type", .str "A"), ("color", .str "#111111"), ("ips", .listv [.str "10.0.0.1"])]

/-- Second group of the duplicate-address document: label `B`, repeating
`10.0.0.1` and adding `10.0.0.2`. -/
def c3group2 : List (String × Yaml) :=
  [("type", .str "B"), ("color", .str "#222222"),
   ("ips", .listv [.str "10.0.0.1", .str "10.0.0.2"])]

/-- A grouped document in which address `10.0.0.1` occurs in both groups. -/
def c3entries : List (String × Yaml) :=
  [("hosts", .listv [.dict c3group1, .dict c3group2])]

/-- Metadata of group `A`. -/
def c3metaA : HostMeta := ⟨.str "A", .str "#111111", .boolv false⟩

/-- Metadata of group `B`. -/
def c3metaB : HostMeta := ⟨.str "B", .str "#222222", .boolv false⟩

/-- The occurrence list of `c3entries`. -/
def c3occs : List (String × HostMeta) :=
  [("10.0.0.1", c3metaA), ("10.0.0.1", c3metaB), ("10.0.0.2", c3metaB)]

/-- One topology table for the host `10.0.0.5`. -/
def c4infoA : List (String × HostMeta) :=
  [("10.0.0.5", ⟨.str "A", .str "#111111", .boolv false⟩)]

/-- A different topology table for the same host `10.0.0.5`. -/
def c4infoB : List (String × HostMeta) :=
  [("10.0.0.5", ⟨.str "B", .str "#222222", .boolv true⟩)]

/-- A cached green result. -/
def cachedGreen : ResultEntry :=
  ⟨"green", some 3, some "2024-01-01 00:00:00", .str "Unknown", .str "#6c757d", .boolv false⟩

/-- A state whose topology is empty while the result store still caches a
green result for `10.0.0.1` (reachable by loading a config containing that
host, probing it, then reloading a config without it: reloads never purge the
store). -/
def c5state : MonitorState := ⟨[], [], [("10.0.0.1", cachedGreen)]⟩

/-- A flat document reintroducing `10.0.0.1` and adding `10.0.0.2`. -/
def c5entries : List (String × Yaml) :=
  [("hosts", .listv [.str "10.0.0.1", .str "10.0.0.2"])]

/-- A state whose topology holds the single host `10.0.0.1`. -/
def c6state : MonitorState :=
  ⟨["10.0.0.1"], [("10.0.0.1", ⟨.str "A", .str "#111111", .boolv false⟩)], []⟩

/-- A flat document mixing a bare address with a known-offline mapping. -/
def c9entries : List (String × Yaml) :=
  [("hosts", .listv [.str "10.0.0.1",
    .dict [("10.0.0.2", .dict [("known_offline", .boolv true)])]])]

/-- A state holding one loaded host with its metadata and a cached result. -/
def c10state : MonitorState :=
  ⟨["10.0.0.1"], [("10.0.0.1", ⟨.str "A", .str "#111111", .boolv false⟩)],
   [("10.0.0.1", cachedGreen)]⟩

/-! ## Library lemmas about the dict model -/

theorem lookup_dictInsert {α : Type} (k a : String) (v : α) (d : List (String × α)) :
    assocLookup (dictInsert k v d) a = if k = a then some v else assocLookup d a := by
  induction d with
  | nil =>
    by_cases hka : k = a <;> simp [dictInsert, assocLookup, hka]
  | cons q t ih =>
    obtain ⟨k1, v1⟩ := q
    simp only [dictInsert]
    by_cases h1 : k1 = k
    · rw [if_pos h1]
      subst h1
      simp only [assocLookup]
      by_cases hka : k1 = a <;> simp [hka]
    · rw [if_neg h1]
      simp only [assocLookup]
      rw [ih]
      by_cases hka : k1 = a
      · have hknea : ¬ (k = a) := fun hc => h1 (hka.trans hc.symm)
        simp [hka, hknea]
      · by_cases hk : k = a <;> simp [hka, hk]

theorem mem_dictInsert {α : Type} (k : String) (v : α) (d : List (String × α))
    (p : String × α) (h : p ∈ dictInsert k v d) : p = (k, v) ∨ p ∈ d := by
  induction d with
  | nil => simpa [dictInsert] using h
  | cons q t ih =>
    obtain ⟨k1, v1⟩ := q
    simp only [dictInsert] at h
    by_cases h1 : k1 = k
    · rw [if_pos h1] at h
      rcases List.mem_cons.mp h with h2 | h2
      · left; exact h2
      · right; exact List.mem_cons_of_mem _ h2
    · rw [if_neg h1] at h
      rcases List.mem_cons.mp h with h2 | h2
      · right; exact h2 ▸ List.mem_cons_self _ _
      · rcases ih h2 with h3 | h3
        · left; exact h3
        · right; exact List.mem_cons_of_mem _ h3

theorem mem_keys_dictInsert {α : Type} (k a : String) (v : α) (d : List (String × α)) :
    a ∈ (dictInsert k v d).map Prod.fst ↔ a = k ∨ a ∈ d.map Prod.fst := by
  induction d with
  | nil => simp [dictInsert]
  | cons q t ih =>
    obtain ⟨k1, v1⟩ := q
    simp only [dictInsert]
    by_cases h1 : k1 = k
    · rw [if_pos h1]
      subst h1
      simp only [List.map_cons, List.mem_cons]
      tauto
    · rw [if_neg h1]
      simp only [List.map_cons, List.mem_cons, ih]
      tauto

theorem keys_dictInsert_nodup {α : Type} (k : String) (v : α) (d : List (String × α))
    (h : (d.map Prod.fst).Nodup) : ((dictInsert k v d).map Prod.fst).Nodup := by
  induction d with
  | nil => simp [dictInsert]
  | cons q t ih =>
    obtain ⟨k1, v1⟩ := q
    simp only [List.map_cons, List.nodup_cons] at h
    simp only [dictInsert]
    by_cases h1 : k1 = k
    · rw [if_pos h1]
      subst h1
      simp only [List.map_cons, List.nodup_cons]
      exact h
    · rw [if_neg h1]
      simp only [List.map_cons, List.nodup_cons]
      refine ⟨?_, ih h.2⟩
      rw [mem_keys_dictInsert]
      rintro (h2 | h2)
      · exact h1 (h2 ▸ rfl)
      · exact h.1 h2

theorem lookup_foldl_insPair {α : Type} (occs : List (String × α)) (d : List (String × α))
    (a : String) :
    assocLookup (occs.foldl insPair d) a =
      match lastVal occs a with
      | some m => some m
      | none => assocLookup d a := by
  induction occs generalizing d with
  | nil => rfl
  | cons p rest ih =>
    obtain ⟨k, v⟩ := p
    rw [List.foldl_cons, ih]
    cases hr : lastVal rest a with
    | some m => simp [lastVal, hr]
    | none =>
      simp only [lastVal, hr, insPair, lookup_dictInsert]
      by_cases hka : k = a <;> simp [hka]

theorem keys_foldl_insPair_nodup {α : Type} (occs : List (String × α))
    (d : List (String × α)) (h : (d.map Prod.fst).Nodup) :
    ((occs.foldl insPair d).map Prod.fst).Nodup := by
  induction occs generalizing d with
  | nil => exact h
  | cons p rest ih =>
    exact ih _ (keys_dictInsert_nodup _ _ _ h)

theorem lastVal_isSome_of_mem {α : Type} (occs : List (String × α)) (a : String)
    (h : a ∈ occs.map Prod.fst) : ∃ m, lastVal occs a = some m := by
  induction occs with
  | nil => simp at h
  | cons p rest ih =>
    obtain ⟨k, v⟩ := p
    cases hr : lastVal rest a with
    | some m => exact ⟨m, by simp [lastVal, hr]⟩
    | none =>
      have hka : a = k ∨ a ∈ rest.map Prod.fst := by simpa using h
      rcases hka with h1 | h2
      · exact ⟨v, by simp [lastVal, hr, h1.symm]⟩
      · obtain ⟨m, hm⟩ := ih h2
        rw [hm] at hr
        cases hr

theorem lastVal_mem {α : Type} (occs : List (String × α)) (a : String) (m : α)
    (h : lastVal occs a = some m) : (a, m) ∈ occs := by
  induction occs with
  | nil => cases h
  | cons p rest ih =>
    obtain ⟨k, v⟩ := p
    cases hr : lastVal rest a with
    | some m2 =>
      rw [lastVal, hr] at h
      cases h
      exact List.mem_cons_of_mem _ (ih hr)
    | none =>
      rw [lastVal, hr] at h
      by_cases hka : k = a
      · rw [if_pos hka] at h
        cases h
        subst hka
        exact List.mem_cons_self _ _
      · rw [if_neg hka] at h
        cases h

/-! ## Lemmas relating the parsing loops to their occurrence lists -/

theorem addIpEntries_of_entryOccs (gtype gcolor : Yaml) (es : List Yaml)
    (occs : List (String × HostMeta)) (h : entryOccs gtype gcolor es = .ok occs) :
    ∀ hosts info, addIpEntries gtype gcolor es hosts info
      = .ok (hosts ++ occs.map Prod.fst) (occs.foldl insPair info) := by
  induction es generalizing occs with
  | nil =>
    intro hosts info
    rw [entryOccs] at h
    cases h
    simp [addIpEntries]
  | cons e rest ih =>
    intro hosts info
    rw [entryOccs] at h
    cases hpe : parseIpEntry e with
    | error u => rw [hpe] at h; cases h
    | ok o =>
      rw [hpe] at h
      cases o with
      | none =>
        rw [addIpEntries, hpe, ih occs h]
      | some pko =>
        obtain ⟨ip, ko⟩ := pko
        cases hro : entryOccs gtype gcolor rest with
        | error u => rw [hro] at h; cases h
        | ok ro =>
          rw [hro] at h
          cases h
          have hih := ih ro hro (hosts ++ [ip]) (dictInsert ip ⟨gtype, gcolor, ko⟩ info)
          simp only [addIpEntries, hpe, hih]
          simp [insPair, List.append_assoc]

theorem entryOccs_of_addIpEntries (gtype gcolor : Yaml) (es : List Yaml) :
    ∀ hosts info h' i', addIpEntries gtype gcolor es hosts info = .ok h' i' →
      ∃ occs, entryOccs gtype gcolor es = .ok occs ∧
        h' = hosts ++ occs.map Prod.fst ∧ i' = occs.foldl insPair info := by
  induction es with
  | nil =>
    intro hosts info h' i' h
    rw [addIpEntries] at h
    cases h
    exact ⟨[], rfl, by simp, rfl⟩
  | cons e rest ih =>
    intro hosts info h' i' h
    rw [addIpEntries] at h
    cases hpe : parseIpEntry e with
    | error u => rw [hpe] at h; cases h
    | ok o =>
      rw [hpe] at h
      cases o with
      | none =>
        obtain ⟨occs, h1, h2, h3⟩ := ih hosts info h' i' h
        exact ⟨occs, by rw [entryOccs, hpe]; exact h1, h2, h3⟩
      | some pko =>
        obtain ⟨ip, ko⟩ := pko
        obtain ⟨occs, h1, h2, h3⟩ := ih (hosts ++ [ip])
          (dictInsert ip ⟨gtype, gcolor, ko⟩ info) h' i' h
        refine ⟨(ip, ⟨gtype, gcolor, ko⟩) :: occs, ?_, ?_, ?_⟩
        · rw [entryOccs, hpe, h1]
          rfl
        · rw [h2]
          simp [List.append_assoc]
        · rw [h3]
          rfl

theorem parseGroups_of_groupOccs (gs : List Yaml)
    (occs : List (String × HostMeta)) (h : groupOccs gs = .ok occs) :
    ∀ hosts info, parseGroups gs hosts info
      = .ok (hosts ++ occs.map Prod.fst) (occs.foldl insPair info) := by
  induction gs generalizing occs with
  | nil =>
    intro hosts info
    rw [groupOccs] at h
    cases h
    simp [parseGroups]
  | cons g rest ih =>
    intro hosts info
    cases g with
    | dict gl =>
      simp only [groupOccs] at h
      cases hit : yamlIter ((assocLookup gl "ips").getD (Yaml.listv [])) with
      | error u =>
        simp only [hit] at h
        cases h
      | ok entries =>
        simp only [hit] at h
        cases heo : entryOccs ((assocLookup gl "type").getD (Yaml.str "Unknown"))
            ((assocLookup gl "color").getD (Yaml.str "#6c757d")) entries with
        | error u =>
          simp only [heo] at h
          cases h
        | ok o1 =>
          simp only [heo] at h
          cases hro : groupOccs rest with
          | error u =>
            simp only [hro] at h
            cases h
          | ok ro =>
            simp only [hro] at h
            cases h
            have hadd := addIpEntries_of_entryOccs _ _ _ _ heo hosts info
            have hih := ih ro hro (hosts ++ o1.map Prod.fst) (o1.foldl insPair info)
            simp only [parseGroups, hit, hadd, hih]
            simp [List.foldl_append, List.append_assoc]
    | null => cases h
    | boolv b => cases h
    | num n => cases h
    | str s => cases h
    | listv l => cases h

theorem entryOccs_meta (gtype gcolor : Yaml) (es : List Yaml)
    (occs : List (String × HostMeta)) (h : entryOccs gtype gcolor es = .ok occs) :
    ∀ p ∈ occs, p.2.type = gtype ∧ p.2.color = gcolor := by
  induction es generalizing occs with
  | nil =>
    rw [entryOccs] at h
    cases h
    intro p hp
    cases hp
  | cons e rest ih =>
    rw [entryOccs] at h
    cases hpe : parseIpEntry e with
    | error u => rw [hpe] at h; cases h
    | ok o =>
      rw [hpe] at h
      cases o with
      | none => exact ih occs h
      | some pko =>
        obtain ⟨ip, ko⟩ := pko
        cases hro : entryOccs gtype gcolor rest with
        | error u => rw [hro] at h; cases h
        | ok ro =>
          rw [hro] at h
          cases h
          intro p hp
          rcases List.mem_cons.mp hp with h2 | h2
          · subst h2
            exact ⟨rfl, rfl⟩
          · exact ih ro hro p h2

theorem addIpEntries_info_pred (P : String × HostMeta → Prop) (gtype gcolor : Yaml)
    (hP : ∀ ip ko, P (ip, ⟨gtype, gcolor, ko⟩)) (es : List Yaml) :
    ∀ hosts info, (∀ p ∈ info, P p) →
      ∀ p ∈ infoOf (addIpEntries gtype gcolor es hosts info), P p := by
  induction es with
  | nil =>
    intro hosts info hinfo p hp
    rw [addIpEntries] at hp
    exact hinfo p hp
  | cons e rest ih =>
    intro hosts info hinfo p hp
    rw [addIpEntries] at hp
    cases hpe : parseIpEntry e with
    | error u =>
      rw [hpe] at hp
      exact hinfo p hp
    | ok o =>
      rw [hpe] at hp
      cases o with
      | none => exact ih hosts info hinfo p hp
      | some pko =>
        obtain ⟨ip, ko⟩ := pko
        refine ih (hosts ++ [ip]) (dictInsert ip ⟨gtype, gcolor, ko⟩ info) ?_ p hp
        intro q hq
        rcases mem_dictInsert _ _ _ _ hq with h2 | h2
        · subst h2
          exact hP ip ko
        · exact hinfo q h2

/-! ## Lemmas about result-store seeding -/

theorem seed_preserves (info : List (String × HostMeta)) (hosts : List String)
    (res : List (String × ResultEntry)) (a : String) (r : ResultEntry)
    (h : assocLookup res a = some r) :
    assocLookup (seedResults info hosts res) a = some r := by
  induction hosts generalizing res with
  | nil => exact h
  | cons hh t ih =>
    rw [seedResults]
    cases hres : assocLookup res hh with
    | some w => exact ih res h
    | none =>
      apply ih
      rw [lookup_dictInsert]
      by_cases hha : hh = a
      · subst hha
        rw [h] at hres
        cases hres
      · rw [if_neg hha]
        exact h

theorem seed_new (info : List (String × HostMeta)) (hosts : List String)
    (res : List (String × ResultEntry)) (a : String)
    (hmem : a ∈ hosts) (h : assocLookup res a = none) :
    assocLookup (seedResults info hosts res) a = some (placeholderEntry info a) := by
  induction hosts generalizing res with
  | nil => cases hmem
  | cons hh t ih =>
    rw [seedResults]
    by_cases hha : hh = a
    · subst hha
      rw [h]
      exact seed_preserves info t _ hh (placeholderEntry info hh)
        (by rw [lookup_dictInsert, if_pos rfl])
    · have hmem' : a ∈ t := by
        rcases List.mem_cons.mp hmem with h1 | h1
        · exact absurd h1.symm hha
        · exact h1
      cases hres : assocLookup res hh with
      | some w => exact ih res hmem' h
      | none =>
        refine ih _ hmem' ?_
        rw [lookup_dictInsert, if_neg hha]
        exact h

/-! ## Claim theorems -/

/-- C1: classification of a probe.  If the reachability check succeeds
(return code zero) and a latency is extracted with value at most 50, the
status is green (with that latency recorded); extracted latency above 50
gives yellow; success with no extractable latency gives green with the
latency field absent; and every failure shape — non-zero return code,
timeout, or an internal error during invocation — gives red. -/
theorem C1_probe_classification (info : List (String × HostMeta))
    (host system now : String) :
    (∀ out l, parse_latency out system = some l → l ≤ 50 →
      (ping_host info host system now (.completed 0 out)).status = "green" ∧
      (ping_host info host system now (.completed 0 out)).latency = some l) ∧
    (∀ out l, parse_latency out system = some l → 50 < l →
      (ping_host info host system now (.completed 0 out)).status = "yellow" ∧
      (ping_host info host system now (.completed 0 out)).latency = some l) ∧
    (∀ out, parse_latency out system = none →
      (ping_host info host system now (.completed 0 out)).status = "green" ∧
      (ping_host info host system now (.completed 0 out)).latency = none) ∧
    (∀ rc out, rc ≠ 0 →
      (ping_host info host system now (.completed rc out)).status = "red") ∧
    (ping_host info host system now .timeout).status = "red" ∧
    (ping_host info host system now .err).status = "red" := by
  refine ⟨?_, ?_, ?_, ?_, rfl, rfl⟩
  · intro out l hp hle
    constructor <;> simp [ping_host, hp, hle]
  · intro out l hp hlt
    constructor <;> simp [ping_host, hp, hlt, not_le.mpr hlt]
  · intro out hp
    constructor <;> simp [ping_host, hp]
  · intro rc out hrc
    simp [ping_host, hrc]

/-- Witness for C1 at concrete ping transcripts: latency 10 is green,
latency 80 is yellow, an output with no latency figure is green with no
latency, and return code 1, a timeout and an internal error are red. -/
theorem C1_probe_classification_witness :
    parse_latency linuxOutFast "linux" = some 10 ∧ (10 : ℚ) ≤ 50 ∧
    (ping_host [] "1.1.1.1" "linux" "t" (.completed 0 linuxOutFast)).status = "green" ∧
    (ping_host [] "1.1.1.1" "linux" "t" (.completed 0 linuxOutFast)).latency = some 10 ∧
    parse_latency linuxOutSlow "linux" = some 80 ∧ (50 : ℚ) < 80 ∧
    (ping_host [] "1.1.1.1" "linux" "t" (.completed 0 linuxOutSlow)).status = "yellow" ∧
    parse_latency linuxOutNoLat "linux" = none ∧
    (ping_host [] "1.1.1.1" "linux" "t" (.completed 0 linuxOutNoLat)).status = "green" ∧
    (ping_host [] "1.1.1.1" "linux" "t" (.completed 0 linuxOutNoLat)).latency = none ∧
    (1 : Int) ≠ 0 ∧
    (ping_host [] "1.1.1.1" "linux" "t" (.completed 1 "")).status = "red" ∧
    (ping_host [] "1.1.1.1" "linux" "t" .timeout).status = "red" ∧
    (ping_host [] "1.1.1.1" "linux" "t" .err).status = "red" := by
  have hfast : parse_latency linuxOutFast "linux" = some 10 := by rfl
  have hslow : parse_latency linuxOutSlow "linux" = some 80 := by rfl
  have hnone : parse_latency linuxOutNoLat "linux" = none := by rfl
  have hle : (10 : ℚ) ≤ 50 := by norm_num
  have hlt : (50 : ℚ) < 80 := by norm_num
  have h := C1_probe_classification [] "1.1.1.1" "linux" "t"
  exact ⟨hfast, hle, (h.1 linuxOutFast 10 hfast hle).1, (h.1 linuxOutFast 10 hfast hle).2,
    hslow, hlt, (h.2.1 linuxOutSlow 80 hslow hlt).1,
    hnone, (h.2.2.1 linuxOutNoLat hnone).1, (h.2.2.1 linuxOutNoLat hnone).2,
    one_ne_zero, h.2.2.2.1 1 "" one_ne_zero, h.2.2.2.2.1, h.2.2.2.2.2⟩

/-- C2: in every entry of the snapshot produced by `get_results_copy`, the
known-offline tag is shown exactly when the status is red and the stored
known-offline value is truthy, the unknown-offline tag exactly when the
status is red and it is not, the two tags are never both set, and both are
clear for any non-red status. -/
theorem C2_snapshot_tags (results : List (String × ResultEntry)) (h : String)
    (r : TaggedEntry) (hmem : (h, r) ∈ get_results_copy results) :
    (r.show_known_tag = true ↔ r.status = "red" ∧ yamlTruthy r.known_offline = true) ∧
    (r.show_unknown_tag = true ↔ r.status = "red" ∧ yamlTruthy r.known_offline = false) ∧
    ¬ (r.show_known_tag = true ∧ r.show_unknown_tag = true) ∧
    (r.status ≠ "red" → r.show_known_tag = false ∧ r.show_unknown_tag = false) := by
  obtain ⟨q, hq, heq⟩ := List.mem_map.mp hmem
  cases heq
  by_cases hred : q.2.status = "red" <;>
    by_cases hko : yamlTruthy q.2.known_offline = true <;>
      simp_all [tagEntry]

/-- Witness for C2: a red, known-offline entry in a one-entry store shows
the known-offline tag and not the unknown-offline tag. -/
theorem C2_snapshot_tags_witness :
    ("10.0.0.1", tagEntry redKnownEntry) ∈ get_results_copy [("10.0.0.1", redKnownEntry)] ∧
    (tagEntry redKnownEntry).show_known_tag = true ∧
    (tagEntry redKnownEntry).show_unknown_tag = false := by
  have hmem : ("10.0.0.1", tagEntry redKnownEntry)
      ∈ get_results_copy [("10.0.0.1", redKnownEntry)] := List.Mem.head _
  have h := C2_snapshot_tags [("10.0.0.1", redKnownEntry)] "10.0.0.1"
    (tagEntry redKnownEntry) hmem
  refine ⟨hmem, h.1.mpr ⟨rfl, rfl⟩, ?_⟩
  cases hs : (tagEntry redKnownEntry).show_unknown_tag
  · rfl
  · have h2 := (h.2.1.mp hs).2
    have h3 : yamlTruthy (tagEntry redKnownEntry).known_offline = true := rfl
    rw [h3] at h2
    cases h2

/-- C4 counterexample: the probe's metadata is re-read from the shared
`host_info` map at probe time, so two probe runs that agree on the host
argument (`"10.0.0.5"`), the platform, the timestamp and the subprocess
outcome, but run against different topology maps, return different
metadata — refuting the claim that the metadata is copied from the Host
argument independently of the shared topology state. -/
theorem C4_metadata_lookup_counterexample :
    c4infoA ≠ c4infoB ∧
    (ping_host c4infoA "10.0.0.5" "linux" "t" .timeout).type ≠
      (ping_host c4infoB "10.0.0.5" "linux" "t" .timeout).type ∧
    (ping_host c4infoA "10.0.0.5" "linux" "t" .timeout).color ≠
      (ping_host c4infoB "10.0.0.5" "linux" "t" .timeout).color ∧
    (ping_host c4infoA "10.0.0.5" "linux" "t" .timeout).known_offline ≠
      (ping_host c4infoB "10.0.0.5" "linux" "t" .timeout).known_offline := by
  refine ⟨?_, ?_, ?_, ?_⟩ <;>
    simp [ping_host, hostInfoGet, c4infoA, c4infoB, assocLookup]

/-- C4 amended: the group label, display colour and known-offline flag of a
probe result are exactly the values looked up in the shared `host_info` map
at probe time (with the defaults `"Unknown"`, `"#6c757d"`, `False` when the
host is absent); hence two runs that agree on both the host argument and the
`host_info` map yield identical metadata, but runs against different maps
need not. -/
theorem C4_metadata_from_host_info (info : List (String × HostMeta))
    (host system now : String) (outcome : PingOutcome) :
    (ping_host info host system now outcome).type = (hostInfoGet info host).type ∧
    (ping_host info host system now outcome).color = (hostInfoGet info host).color ∧
    (ping_host info host system now outcome).known_offline
      = (hostInfoGet info host).known_offline := by
  cases outcome with
  | completed rc out =>
    by_cases h : rc = 0 <;> simp [ping_host, h]
  | timeout => exact ⟨rfl, rfl, rfl⟩
  | err => exact ⟨rfl, rfl, rfl⟩

/-- C6: probing a single host through the HTTP entry point signals the
distinguishable `Host not found` error and leaves the whole state untouched
when the address is not in the current topology; when it is, the probe
result is returned and written through to the result store. -/
theorem C6_ping_single (st : MonitorState) (host system now : String)
    (outcome : PingOutcome) :
    (host ∉ st.hosts →
      ping_single st host system now outcome = (.error "Host not found", st)) ∧
    (host ∈ st.hosts →
      (ping_single st host system now outcome).1
        = .ok (host, ping_host st.host_info host system now outcome) ∧
      assocLookup (ping_single st host system now outcome).2.results host
        = some (ping_host st.host_info host system now outcome) ∧
      (ping_single st host system now outcome).2.hosts = st.hosts ∧
      (ping_single st host system now outcome).2.host_info = st.host_info) := by
  constructor
  · intro h
    simp [ping_single, h]
  · intro h
    refine ⟨?_, ?_, ?_, ?_⟩ <;> simp [ping_single, h, lookup_dictInsert]

/-- Witness for C6: with topology `["10.0.0.1"]`, probing `10.0.0.99`
returns the not-found error and the untouched state, while probing
`10.0.0.1` writes the result through. -/
theorem C6_ping_single_witness :
    "10.0.0.99" ∉ c6state.hosts ∧
    ping_single c6state "10.0.0.99" "linux" "t" .timeout
      = (.error "Host not found", c6state) ∧
    "10.0.0.1" ∈ c6state.hosts ∧
    assocLookup (ping_single c6state "10.0.0.1" "linux" "t" .timeout).2.results "10.0.0.1"
      = some (ping_host c6state.host_info "10.0.0.1" "linux" "t" .timeout) := by
  have h99 : "10.0.0.99" ∉ c6state.hosts := by decide
  have h1 : "10.0.0.1" ∈ c6state.hosts := by decide
  exact ⟨h99, (C6_ping_single c6state "10.0.0.99" "linux" "t" .timeout).1 h99,
    h1, ((C6_ping_single c6state "10.0.0.1" "linux" "t" .timeout).2 h1).2.1⟩

/-- C7: the probe never propagates a failure outward — every failure mode
(non-zero return code, hard timeout, any internal error caught by the
blanket handler) is absorbed into a returned result with status red and no
latency value; the embedding is a total function, so a result is returned
for every host and outcome. -/
theorem C7_probe_total_red (info : List (String × HostMeta))
    (host system now : String) :
    (∀ rc out, rc ≠ 0 →
      (ping_host info host system now (.completed rc out)).status = "red" ∧
      (ping_host info host system now (.completed rc out)).latency = none) ∧
    ((ping_host info host system now .timeout).status = "red" ∧
      (ping_host info host system now .timeout).latency = none) ∧
    ((ping_host info host system now .err).status = "red" ∧
      (ping_host info host system now .err).latency = none) := by
  refine ⟨?_, ⟨rfl, rfl⟩, ⟨rfl, rfl⟩⟩
  intro rc out hrc
  constructor <;> simp [ping_host, hrc]

/-- Witness for C7 at return code 1. -/
theorem C7_probe_total_red_witness :
    (1 : Int) ≠ 0 ∧
    (ping_host [] "1.1.1.1" "linux" "t" (.completed 1 "x")).status = "red" ∧
    (ping_host [] "1.1.1.1" "linux" "t" (.completed 1 "x")).latency = none :=
  ⟨one_ne_zero,
    ((C7_probe_total_red [] "1.1.1.1" "linux" "t").1 1 "x" one_ne_zero).1,
    ((C7_probe_total_red [] "1.1.1.1" "linux" "t").1 1 "x" one_ne_zero).2⟩

/-- C8 counterexample: a mapping document without a `hosts` key takes the
normal parsing path (`data.get('hosts', [])` silently defaults to the empty
list), so the load ends with an empty host set but *no* reported error —
refuting the claim that a missing `hosts` key yields a reported error.  The
second component of `load_config` records whether a `logger.error`
diagnostic was emitted. -/
theorem C8_missing_hosts_counterexample :
    (load_config initState (.doc (Yaml.dict [("config", Yaml.null)]))).1.hosts = [] ∧
    (load_config initState (.doc (Yaml.dict [("config", Yaml.null)]))).2 = false :=
  ⟨rfl, rfl⟩

/-- C8 amended: an empty document and a non-mapping document each yield an
empty host set together with a reported error, while a mapping document
missing the `hosts` key yields an empty host set with no reported error;
`load_config` is a total function, so no document shape raises. -/
theorem C8_config_error_handling (st : MonitorState) (d : Yaml)
    (entries : List (String × Yaml)) :
    ((load_config st (.doc Yaml.null)).1.hosts = [] ∧
      (load_config st (.doc Yaml.null)).2 = true) ∧
    (yamlIsDict d = false →
      (load_config st (.doc d)).1.hosts = [] ∧ (load_config st (.doc d)).2 = true) ∧
    (assocLookup entries "hosts" = none →
      (load_config st (.doc (.dict entries))).1.hosts = [] ∧
      (load_config st (.doc (.dict entries))).2 = false) := by
  refine ⟨⟨rfl, rfl⟩, ?_, ?_⟩
  · intro h
    cases d with
    | null => exact ⟨rfl, rfl⟩
    | boolv b => exact ⟨rfl, rfl⟩
    | num n => exact ⟨rfl, rfl⟩
    | str s => exact ⟨rfl, rfl⟩
    | listv l => exact ⟨rfl, rfl⟩
    | dict l => simp [yamlIsDict] at h
  · intro h
    constructor <;>
      simp [load_config, parseHostsData, h, groupedBranch, yamlTruthy, yamlIter,
        addIpEntries, seedResults]

/-- Witness for C8 at a non-mapping document and a mapping without `hosts`. -/
theorem C8_config_error_handling_witness :
    yamlIsDict (Yaml.str "oops") = false ∧
    (load_config initState (.doc (Yaml.str "oops"))).1.hosts = [] ∧
    (load_config initState (.doc (Yaml.str "oops"))).2 = true ∧
    assocLookup ([("config", Yaml.null)] : List (String × Yaml)) "hosts" = none ∧
    (load_config initState (.doc (.dict [("config", Yaml.null)]))).1.hosts = [] ∧
    (load_config initState (.doc (.dict [("config", Yaml.null)]))).2 = false := by
  have h := C8_config_error_handling initState (Yaml.str "oops") [("config", Yaml.null)]
  exact ⟨rfl, (h.2.1 rfl).1, (h.2.1 rfl).2, rfl, (h.2.2 rfl).1, (h.2.2 rfl).2⟩

/-- C10: when a (re)load fails — missing file, YAML parse error, empty
document, or a document that is not a mapping — the hosts list is reset to
empty while the result store and the host metadata map are left unchanged;
consequently a subsequent snapshot returns exactly what it returned before
and the health summary reports a host count of zero. -/
theorem C10_failed_reload_frame (st : MonitorState) (active : Bool) (now : String)
    (input : LoadInput)
    (hfail : input = .fileNotFound ∨ input = .yamlError ∨
      ∃ d, input = .doc d ∧ yamlIsDict d = false) :
    (load_config st input).1.hosts = [] ∧
    (load_config st input).1.results = st.results ∧
    (load_config st input).1.host_info = st.host_info ∧
    get_results_copy ((load_config st input).1.results) = get_results_copy st.results ∧
    (health_check (load_config st input).1 active now).hosts_count = 0 := by
  rcases hfail with h | h | ⟨d, hd, hdict⟩
  · subst h
    exact ⟨rfl, rfl, rfl, rfl, rfl⟩
  · subst h
    exact ⟨rfl, rfl, rfl, rfl, rfl⟩
  · subst hd
    cases d with
    | null => exact ⟨rfl, rfl, rfl, rfl, rfl⟩
    | boolv b => exact ⟨rfl, rfl, rfl, rfl, rfl⟩
    | num n => exact ⟨rfl, rfl, rfl, rfl, rfl⟩
    | str s => exact ⟨rfl, rfl, rfl, rfl, rfl⟩
    | listv l => exact ⟨rfl, rfl, rfl, rfl, rfl⟩
    | dict l => simp [yamlIsDict] at hdict

/-- Witness for C10: reloading from a missing file over a state with one
host, one metadata entry and one cached result empties the hosts list,
keeps the cached result and the metadata, and reports zero hosts. -/
theorem C10_failed_reload_frame_witness :
    (load_config c10state .fileNotFound).1.hosts = [] ∧
    (load_config c10state .fileNotFound).1.results = c10state.results ∧
    (load_config c10state .fileNotFound).1.host_info = c10state.host_info ∧
    get_results_copy ((load_config c10state .fileNotFound).1.results)
      = get_results_copy c10state.results ∧
    (health_check (load_config c10state .fileNotFound).1 true "t").hosts_count = 0 :=
  C10_failed_reload_frame c10state true "t" .fileNotFound (Or.inl rfl)

/-- C3 counterexample: loading a valid grouped document in which the address
`10.0.0.1` appears in two groups puts that address into the hosts sequence
twice, refuting the claim that every member address appears exactly once in
the hosts sequence produced by load. -/
theorem C3_duplicate_address_counterexample :
    (load_config initState (.doc (.dict c3entries))).1.hosts
      = ["10.0.0.1", "10.0.0.1", "10.0.0.2"] ∧
    ¬ ((load_config initState (.doc (.dict c3entries))).1.hosts.count "10.0.0.1" = 1) := by
  constructor
  · rfl
  · decide

/-- C3 amended: for a valid grouped document (one whose occurrence list
`groupOccs` is defined), the hosts sequence lists every member occurrence in
order — so a duplicated address appears once per occurrence, not once — while
the host metadata map holds every member address exactly once (its keys have
no duplicates), bound to the `type`/`color`/`known_offline` of the address's
last occurrence (last write wins). -/
theorem C3_last_write_wins (st : MonitorState) (entries : List (String × Yaml))
    (g : Yaml) (gl : List (String × Yaml)) (gs : List Yaml)
    (occs : List (String × HostMeta))
    (hhosts : assocLookup entries "hosts" = some (.listv (g :: gs)))
    (hg : g = .dict gl) (hty : yamlHasKey g "type" = true)
    (hoccs : groupOccs (g :: gs) = .ok occs) :
    (load_config st (.doc (.dict entries))).1.hosts = occs.map Prod.fst ∧
    (((load_config st (.doc (.dict entries))).1.host_info).map Prod.fst).Nodup ∧
    ∀ a, assocLookup ((load_config st (.doc (.dict entries))).1.host_info) a
      = lastVal occs a := by
  subst hg
  have hpg := parseGroups_of_groupOccs (Yaml.dict gl :: gs) occs hoccs [] []
  rw [List.nil_append] at hpg
  have hpd : parseHostsData (Yaml.listv (Yaml.dict gl :: gs))
      = ParseResult.ok (occs.map Prod.fst) (occs.foldl insPair []) := by
    simp [parseHostsData, groupedBranch, yamlTruthy, yamlIndex0, yamlIsDict, hty,
      yamlIter, hpg]
  have hstate : (load_config st (.doc (.dict entries))).1
      = { st with hosts := occs.map Prod.fst,
                  host_info := occs.foldl insPair [],
                  results := seedResults (occs.foldl insPair [])
                    (occs.map Prod.fst) st.results } := by
    simp [load_config, hhosts, hpd]
  rw [hstate]
  refine ⟨rfl, keys_foldl_insPair_nodup occs [] (by simp), fun a => ?_⟩
  rw [lookup_foldl_insPair]
  cases hlv : lastVal occs a
  · rfl
  · rfl

/-- Witness for C3's amended statement on the duplicate-address document:
the hosts sequence is the three occurrences in order and the metadata map
binds `10.0.0.1` to group `B`'s metadata, the last occurrence's. -/
theorem C3_last_write_wins_witness :
    assocLookup c3entries "hosts" = some (.listv (Yaml.dict c3group1 :: [Yaml.dict c3group2])) ∧
    yamlHasKey (Yaml.dict c3group1) "type" = true ∧
    groupOccs (Yaml.dict c3group1 :: [Yaml.dict c3group2]) = .ok c3occs ∧
    (load_config initState (.doc (.dict c3entries))).1.hosts = c3occs.map Prod.fst ∧
    (((load_config initState (.doc (.dict c3entries))).1.host_info).map Prod.fst).Nodup ∧
    assocLookup ((load_config initState (.doc (.dict c3entries))).1.host_info) "10.0.0.1"
      = lastVal c3occs "10.0.0.1" ∧
    lastVal c3occs "10.0.0.1" = some c3metaB := by
  have h1 : assocLookup c3entries "hosts"
      = some (.listv (Yaml.dict c3group1 :: [Yaml.dict c3group2])) := rfl
  have h2 : yamlHasKey (Yaml.dict c3group1) "type" = true := rfl
  have h3 : groupOccs (Yaml.dict c3group1 :: [Yaml.dict c3group2]) = .ok c3occs := rfl
  have h := C3_last_write_wins initState c3entries (Yaml.dict c3group1) c3group1
    [Yaml.dict c3group2] c3occs h1 rfl h2 h3
  exact ⟨h1, h2, h3, h.1, h.2.1, h.2.2 "10.0.0.1", rfl⟩

/-- C5 counterexample: over a state whose result store still caches a green
result for `10.0.0.1` while the topology is empty (reachable because reloads
never purge the store), reloading a config that reintroduces `10.0.0.1`
leaves the cached green result in place — the address is newly introduced to
the topology, yet no `unknown` placeholder is seeded for it, refuting the
claim that every address newly introduced to the topology gets an `unknown`
placeholder. -/
theorem C5_reintroduced_address_counterexample :
    "10.0.0.1" ∈ (load_config c5state (.doc (.dict c5entries))).1.hosts ∧
    "10.0.0.1" ∉ c5state.hosts ∧
    assocLookup (load_config c5state (.doc (.dict c5entries))).1.results "10.0.0.1"
      = some cachedGreen ∧
    cachedGreen.status ≠ "unknown" := by
  refine ⟨by decide, by decide, rfl, by decide⟩

/-- C5 amended: after any (re)load, every cached result survives unchanged
(whether or not its address is still in the topology), and every address of
the new topology that had no cached result is seeded with a placeholder of
status `unknown`, no latency and no timestamp. -/
theorem C5_seed_and_preserve (st : MonitorState) (input : LoadInput) :
    (∀ a r, assocLookup st.results a = some r →
      assocLookup ((load_config st input).1).results a = some r) ∧
    (∀ a, a ∈ ((load_config st input).1).hosts → assocLookup st.results a = none →
      ∃ r, assocLookup ((load_config st input).1).results a = some r ∧
        r.status = "unknown" ∧ r.latency = none ∧ r.timestamp = none) := by
  cases input with
  | fileNotFound =>
    exact ⟨fun a r h => h, fun a ha _ => absurd ha (List.not_mem_nil a)⟩
  | yamlError =>
    exact ⟨fun a r h => h, fun a ha _ => absurd ha (List.not_mem_nil a)⟩
  | doc d =>
    cases d with
    | null => exact ⟨fun a r h => h, fun a ha _ => absurd ha (List.not_mem_nil a)⟩
    | boolv b => exact ⟨fun a r h => h, fun a ha _ => absurd ha (List.not_mem_nil a)⟩
    | num n => exact ⟨fun a r h => h, fun a ha _ => absurd ha (List.not_mem_nil a)⟩
    | str s => exact ⟨fun a r h => h, fun a ha _ => absurd ha (List.not_mem_nil a)⟩
    | listv l => exact ⟨fun a r h => h, fun a ha _ => absurd ha (List.not_mem_nil a)⟩
    | dict entries =>
      cases hpr : parseHostsData ((assocLookup entries "hosts").getD (Yaml.listv [])) with
      | err info =>
        simp only [load_config, hpr]
        exact ⟨fun a r h => h, fun a ha _ => absurd ha (List.not_mem_nil a)⟩
      | ok hosts info =>
        simp only [load_config, hpr]
        constructor
        · intro a r h
          exact seed_preserves info hosts st.results a r h
        · intro a ha hnone
          exact ⟨placeholderEntry info a,
            seed_new info hosts st.results a ha hnone, rfl, rfl, rfl⟩

/-- Witness for C5's amended statement: reloading `c5entries` over `c5state`
keeps the cached green result of `10.0.0.1` byte-for-byte and seeds the
uncached `10.0.0.2` with an `unknown` placeholder. -/
theorem C5_seed_and_preserve_witness :
    assocLookup c5state.results "10.0.0.1" = some cachedGreen ∧
    assocLookup ((load_config c5state (.doc (.dict c5entries))).1).results "10.0.0.1"
      = some cachedGreen ∧
    "10.0.0.2" ∈ ((load_config c5state (.doc (.dict c5entries))).1).hosts ∧
    assocLookup c5state.results "10.0.0.2" = none ∧
    (∃ r, assocLookup ((load_config c5state (.doc (.dict c5entries))).1).results "10.0.0.2"
      = some r ∧ r.status = "unknown" ∧ r.latency = none ∧ r.timestamp = none) := by
  have h := C5_seed_and_preserve c5state (.doc (.dict c5entries))
  have h1 : assocLookup c5state.results "10.0.0.1" = some cachedGreen := rfl
  have h2 : "10.0.0.2" ∈ ((load_config c5state (.doc (.dict c5entries))).1).hosts := by
    decide
  have h3 : assocLookup c5state.results "10.0.0.2" = none := rfl
  exact ⟨h1, h.1 "10.0.0.1" cachedGreen h1, h2, h3, h.2 "10.0.0.2" h2 h3⟩

/-- C9: for every flat/legacy document — one the format detection sends down
the flat branch — every entry of the resulting host metadata map carries the
group label `"Unknown"` and the default colour `"#6c757d"`, and every host of
the resulting topology looks up to such metadata. -/
theorem C9_flat_defaults (st : MonitorState) (entries : List (String × Yaml))
    (hflat : groupedBranch ((assocLookup entries "hosts").getD (Yaml.listv []))
      = .ok false) :
    (∀ p ∈ ((load_config st (.doc (.dict entries))).1).host_info,
      p.2.type = Yaml.str "Unknown" ∧ p.2.color = Yaml.str "#6c757d") ∧
    (∀ a ∈ ((load_config st (.doc (.dict entries))).1).hosts,
      ∃ m, assocLookup ((load_config st (.doc (.dict entries))).1).host_info a = some m ∧
        m.type = Yaml.str "Unknown" ∧ m.color = Yaml.str "#6c757d") := by
  cases hit : yamlIter ((assocLookup entries "hosts").getD (Yaml.listv [])) with
  | error u =>
    have hpd : parseHostsData ((assocLookup entries "hosts").getD (Yaml.listv []))
        = ParseResult.err [] := by
      simp [parseHostsData, hflat, hit]
    simp only [load_config, hpd]
    exact ⟨fun p hp => absurd hp (List.not_mem_nil p),
      fun a ha => absurd ha (List.not_mem_nil a)⟩
  | ok items =>
    have hpd : parseHostsData ((assocLookup entries "hosts").getD (Yaml.listv []))
        = addIpEntries (Yaml.str "Unknown") (Yaml.str "#6c757d") items [] [] := by
      simp [parseHostsData, hflat, hit]
    have hpred := addIpEntries_info_pred
      (fun q => q.2.type = Yaml.str "Unknown" ∧ q.2.color = Yaml.str "#6c757d")
      (Yaml.str "Unknown") (Yaml.str "#6c757d") (fun ip ko => ⟨rfl, rfl⟩) items [] []
      (fun q hq => absurd hq (List.not_mem_nil q))
    cases hadd : addIpEntries (Yaml.str "Unknown") (Yaml.str "#6c757d") items [] [] with
    | err info =>
      rw [hadd] at hpred
      simp only [load_config, hpd, hadd]
      exact ⟨fun p hp => hpred p hp, fun a ha => absurd ha (List.not_mem_nil a)⟩
    | ok hosts info =>
      rw [hadd] at hpred
      simp only [load_config, hpd, hadd]
      obtain ⟨occs, hocc, hh, hi⟩ :=
        entryOccs_of_addIpEntries (Yaml.str "Unknown") (Yaml.str "#6c757d") items
          [] [] hosts info hadd
      constructor
      · exact fun p hp => hpred p hp
      · intro a ha
        rw [hh, List.nil_append] at ha
        obtain ⟨m, hm⟩ := lastVal_isSome_of_mem occs a ha
        refine ⟨m, ?_, ?_⟩
        · rw [hi, lookup_foldl_insPair, hm]
        · exact entryOccs_meta _ _ items occs hocc (a, m) (lastVal_mem occs a m hm)

/-- Witness for C9 on a flat document mixing a bare address with a
known-offline mapping entry: both hosts are loaded and `10.0.0.1` looks up
to the default metadata. -/
theorem C9_flat_defaults_witness :
    groupedBranch ((assocLookup c9entries "hosts").getD (Yaml.listv [])) = .ok false ∧
    "10.0.0.1" ∈ ((load_config initState (.doc (.dict c9entries))).1).hosts ∧
    (∃ m, assocLookup ((load_config initState (.doc (.dict c9entries))).1).host_info
        "10.0.0.1" = some m ∧
      m.type = Yaml.str "Unknown" ∧ m.color = Yaml.str "#6c757d") := by
  have hflat : groupedBranch ((assocLookup c9entries "hosts").getD (Yaml.listv []))
      = .ok false := rfl
  have hmem : "10.0.0.1" ∈ ((load_config initState (.doc (.dict c9entries))).1).hosts := by
    decide
  exact ⟨hflat, hmem, (C9_flat_defaults initState c9entries hflat).2 "10.0.0.1" hmem⟩
